import Mathlib

/-!
# Verification of the Locator Synthesis & Resilience Scoring Engine

Shallow embedding of the element-inspection content script
(`src/unnamed/part_002`): the resilience scorer `calculateResilienceScore`,
the selector synthesizer `getElementSelector` with its uniqueness oracle
`isUniqueSelector`, the XPath builder `getElementXPath`, the dynamic-element
classification performed in `handleElementClick`, and the two locator
composers `getPlaywrightLocator` / `getSeleniumLocator`.

Modelling conventions:
* JavaScript strings are Lean `String`s; character-level operations
  (`trim`, `split`, regex tests, quote escaping) are implemented over
  `String.data` (`List Char`), mirroring the observable JS semantics.
* The DOM is an inductive tree of elements; a node is identified by its
  child-index path from the root (reference identity of DOM nodes).
* The selectors the synthesizer produces are modelled as an AST
  (`SimpleSel` segments combined with the child combinator `>`), with a
  renderer producing the selector string the code would emit;
  `document.querySelectorAll` is modelled as a query over that AST.
* `document.querySelectorAll` throwing on a malformed selector is modelled
  by a parameter `bad : Sel → Bool` marking the selectors the oracle
  rejects; `isUniqueSelector` maps a rejected selector to `false`, exactly
  like the `try/catch` at the oracle boundary.
* Machine integers: scores are small `Nat`s; timestamps are `Int`s
  (`Date.now()` differences never overflow a JS number here).
-/

namespace AITestGen


/-! ## Character-level utilities (JS string semantics) -/

/-- Whitespace characters recognised by the JS `\s` class and `trim`
(restricted to the ASCII whitespace actually occurring in class strings). -/
def isWsChar (c : Char) : Bool :=
  c = ' ' || c = '\t' || c = '\n' || c = '\r'

/-- JS `String.prototype.trim` on a char list. -/
def jsTrimL (l : List Char) : List Char :=
  ((l.dropWhile isWsChar).reverse.dropWhile isWsChar).reverse

/-- JS `String.prototype.trim`. -/
def jsTrim (s : String) : String := ⟨jsTrimL s.data⟩

/-- `.replace(/'/g, "\\'")`: escape single quotes with a backslash. -/
def escSQL (l : List Char) : List Char :=
  l.flatMap fun c => if c = '\'' then ['\\', '\''] else [c]

/-- String form of `escSQL`. -/
def escSQ (s : String) : String := ⟨escSQL s.data⟩

/-- `.replace(/"/g, '\\"')`: escape double quotes with a backslash. -/
def escDQ (s : String) : String :=
  ⟨s.data.flatMap fun c => if c = '"' then ['\\', '"'] else [c]⟩

/-- `escapeCssStr` from `getSeleniumLocator`:
`.replace(/(["'\\])/g, '\\$1')`. -/
def escapeCssStr (s : String) : String :=
  ⟨s.data.flatMap fun c =>
    if c = '"' || c = '\'' || c = '\\' then ['\\', c] else [c]⟩

/-- JS `s.split('\n')[0]`: the text up to the first newline. -/
def firstLine (s : String) : String := ⟨s.data.takeWhile (· ≠ '\n')⟩

/-- JS `s.substring(0, 50)`. -/
def take50 (s : String) : String := ⟨s.data.take 50⟩

/-! ## The regex `/\d{4,}/`: a run of four or more consecutive digits

`hasDigitRun4` is the scanner implementing the test the content script
performs at line 607 (`/\d{4,}/.test(...)`); `DigitRun4` is the
declarative reading "the string contains four consecutive digit
characters". -/

/-- Scanner for `/\d{4,}/.test`: walk the characters keeping the length of
the current digit run; succeed as soon as the run reaches 4. -/
def digitRunAux : List Char → Nat → Bool
  | [], _ => false
  | c :: rest, run =>
    if c.isDigit then
      if 4 ≤ run + 1 then true else digitRunAux rest (run + 1)
    else
      digitRunAux rest 0

/-- `/\d{4,}/.test (s)`. -/
def hasDigitRun4 (s : String) : Bool := digitRunAux s.data 0

/-- Declarative spec: the character list contains a block of four
consecutive digits (a run of ≥ 4 digits contains such a block). -/
def DigitRun4L (l : List Char) : Prop :=
  ∃ a m b : List Char, l = a ++ m ++ b ∧ m.length = 4 ∧ ∀ c ∈ m, c.isDigit

/-- Declarative spec on strings. -/
def DigitRun4 (s : String) : Prop := DigitRun4L s.data

/-! ## The regex literal `/\\d{4,}/` actually used by the scorer

In a JavaScript regex literal, `\\` matches one literal backslash
character and `d{4,}` then matches four or more letter `d` characters.
So `/\\d{4,}/.test(value)` — the test `calculateResilienceScore`
performs on `id` and `class` values at lines 894 and 899 — succeeds only
when the value contains a backslash followed by at least four `d`s.
This differs from the `/\d{4,}/` (digit-run) test used at line 607. -/

/-- Number of leading `d` characters. -/
def countLeadingD : List Char → Nat
  | 'd' :: rest => countLeadingD rest + 1
  | _ => 0

/-- `/\\d{4,}/.test`: somewhere in the list, a backslash followed by four
or more `d` characters. -/
def hasBsDddd : List Char → Bool
  | [] => false
  | c :: rest => (c = '\\' && 4 ≤ countLeadingD rest) || hasBsDddd rest

/-! ## Substring containment and `split('>')` (for the `css` score) -/

/-- `pre` is a leading block of `l`. -/
def leadsWith : List Char → List Char → Bool
  | [], _ => true
  | _ :: _, [] => false
  | p :: ps, c :: cs => p = c && leadsWith ps cs

/-- JS `String.prototype.includes` on char lists: `pat` occurs
contiguously somewhere in `l`. -/
def hasSubList (pat : List Char) : List Char → Bool
  | [] => leadsWith pat []
  | c :: cs => leadsWith pat (c :: cs) || hasSubList pat cs

/-- JS `value.includes(pat)`. -/
def strIncludes (s pat : String) : Bool := hasSubList pat.data s.data

/-- Declarative reading of `includes`: `pat` splits `l` as `a ++ pat ++ b`. -/
def SubOccurs (l pat : List Char) : Prop := ∃ a b, l = a ++ pat ++ b

/-- JS `value.split('>')`: cut the char list at every `'>'`; `n`
occurrences of `'>'` yield `n + 1` parts. -/
def splitGt : List Char → List (List Char)
  | [] => [[]]
  | c :: cs =>
    let rest := splitGt cs
    if c = '>' then
      [] :: rest
    else
      match rest with
      | r :: rs => (c :: r) :: rs
      | [] => [[c]]

/-! ## The Resilience Scorer (`calculateResilienceScore`, lines 888–907)

Direct translation of the source, including the `/\\d{4,}/` regex
literals of the `id` and `class` branches (see `hasBsDddd` above). -/

/-- `calculateResilienceScore(type, value)` — lines 888–907. -/
def calculateResilienceScore (type : String) (value : String) : Nat :=
  if type = "testid" then 100
  else if type = "role" then 90
  else if type = "placeholder" then 80
  else if type = "text" then 60
  else if type = "id" then
    if hasBsDddd value.data then 10 else 70
  else if type = "name" then 65
  else if type = "class" then
    if hasBsDddd value.data then 10 else 40
  else if type = "css" then
    if strIncludes value ":nth-of-type" || 3 < (splitGt value.data).length
    then 15 else 30
  else 0

/-! ## The document tree

An element carries the host properties the engine reads: `tagName`
(stored lowercased, as every comparison in the source first lowercases),
`id`, `className` (the raw class string), its attribute list, its
`innerText`, and its element children. A concrete DOM node is identified
by its child-index path from the document root, which models reference
identity (`===`) of DOM nodes. -/

inductive Elem where
  | el (tag idA className : String) (attrs : List (String × String))
       (innerText : String) (children : List Elem)

instance : Inhabited Elem := ⟨.el "" "" "" [] "" []⟩

def Elem.tag : Elem → String
  | .el t _ _ _ _ _ => t

def Elem.idAttr : Elem → String
  | .el _ i _ _ _ _ => i

def Elem.className : Elem → String
  | .el _ _ c _ _ _ => c

def Elem.attrs : Elem → List (String × String)
  | .el _ _ _ a _ _ => a

def Elem.innerText : Elem → String
  | .el _ _ _ _ t _ => t

def Elem.children : Elem → List Elem
  | .el _ _ _ _ _ cs => cs

/-- The node reached from `e` by following the child indices in `p`. -/
def elemAt : Elem → List Nat → Option Elem
  | e, [] => some e
  | e, i :: p =>
    match e.children.get? i with
    | some c => elemAt c p
    | none => none

/-- Total version of `elemAt` (meaningful on valid paths). -/
def elemAtD (t : Elem) (p : List Nat) : Elem := (elemAt t p).getD default

mutual

/-- All node paths of the tree rooted at `e`, in document (pre-) order. -/
def subpathsE : Elem → List (List Nat)
  | .el _ _ _ _ _ cs => [] :: subpathsL 0 cs

def subpathsL : Nat → List Elem → List (List Nat)
  | _, [] => []
  | i, c :: cs => (subpathsE c).map (List.cons i) ++ subpathsL (i + 1) cs
end

/-- Parent path and last child index of a non-root path. -/
def parentIdx (p : List Nat) : Option (List Nat × Nat) :=
  match p.getLast? with
  | none => none
  | some i => some (p.dropLast, i)

/-- Count of preceding element siblings sharing the node's tag name
(the loop over `previousElementSibling` / `previousSibling` used both by
the CSS `:nth-of-type` computation and the XPath index computation). -/
def prevSameTagCount (t : Elem) (p : List Nat) : Nat :=
  match parentIdx p with
  | none => 0
  | some (q, i) =>
    ((elemAtD t q).children.take i).countP
      fun c => c.tag == (elemAtD t p).tag

/-- `className.trim().split(/\s+/).filter(Boolean)`: the whitespace-
separated class tokens. -/
def wsTokensAux : List Char → List Char → List (List Char)
  | [], acc => if acc.isEmpty then [] else [acc.reverse]
  | c :: cs, acc =>
    if isWsChar c then
      if acc.isEmpty then wsTokensAux cs [] else acc.reverse :: wsTokensAux cs []
    else wsTokensAux cs (c :: acc)

def classTokens (s : String) : List String :=
  (wsTokensAux s.data []).map fun l => ⟨l⟩

/-- `element.getAttribute(a)`: `some` value when the attribute is
present. -/
def getAttr (e : Elem) (a : String) : Option String :=
  (e.attrs.find? fun kv => kv.1 == a).map (·.2)

/-- A *truthy* `getAttribute` result (`null` and `""` are falsy in JS). -/
def attrVal (e : Elem) (a : String) : Option String :=
  match getAttr e a with
  | some v => if v = "" then none else some v
  | none => none

/-- `element.hasAttribute(a)`. -/
def hasAttr (e : Elem) (a : String) : Bool := (getAttr e a).isSome

/-! ## The selector fragment language produced by `getElementSelector`

The synthesizer only ever emits `#id`, `.cls`/`.a.b.c`,
`tag[attr="value"]`, bare `tag`, `tag:nth-of-type(k)` and `>`-joined
paths of such segments, so selectors are embedded as that AST; `renderSel`
produces the string the code would pass to `document.querySelectorAll`,
and the query itself is modelled on the AST. -/

inductive SimpleSel where
  | idSel (i : String)
  | classSel (cs : List String)
  | attrSel (tag attr value : String)
  | tagSel (tag : String)
  | tagNth (tag : String) (k : Nat)
deriving DecidableEq

/-- A selector: segments from outermost ancestor to target, joined by
the child combinator `>`. -/
abbrev Sel := List SimpleSel

def renderSimple : SimpleSel → String
  | .idSel i => "#" ++ i
  | .classSel cs => cs.foldl (fun acc c => acc ++ "." ++ c) ""
  | .attrSel tag a v => tag ++ "[" ++ a ++ "=\"" ++ v ++ "\"]"
  | .tagSel tag => tag
  | .tagNth tag k => tag ++ ":nth-of-type(" ++ toString k ++ ")"

def renderSel (sel : Sel) : String :=
  String.intercalate " > " (sel.map renderSimple)

/-- Does the node at `p` match one segment? (`:nth-of-type(k)` is the
1-based position among same-tag siblings.) -/
def matchesSimple (t : Elem) (p : List Nat) : SimpleSel → Bool
  | .idSel i => (elemAtD t p).idAttr == i
  | .classSel cs => cs.all fun c => (classTokens (elemAtD t p).className).contains c
  | .attrSel tag a v => (elemAtD t p).tag == tag && getAttr (elemAtD t p) a == some v
  | .tagSel tag => (elemAtD t p).tag == tag
  | .tagNth tag k => (elemAtD t p).tag == tag && (1 + prevSameTagCount t p) == k

/-- Match a reversed segment chain (`target`-segment first) against the
node at `p`, walking up one parent per `>`. -/
def matchesChainRev (t : Elem) : List SimpleSel → List Nat → Bool
  | [], _ => true
  | s :: rest, p =>
    matchesSimple t p s &&
      match parentIdx p with
      | some (q, _) => matchesChainRev t rest q
      | none => rest.isEmpty

def selMatches (t : Elem) (sel : Sel) (p : List Nat) : Bool :=
  matchesChainRev t sel.reverse p

/-- `document.querySelectorAll(sel)`: all matching node paths in
document order. -/
def querySelectorAll (t : Elem) (sel : Sel) : List (List Nat) :=
  (subpathsE t).filter (selMatches t sel)

/-- `isUniqueSelector(selector, element)` — lines 827–838.  The oracle
rejecting a selector as malformed (`document.querySelectorAll` throwing,
caught by the `try/catch`) is modelled by the parameter `bad`; a rejected
selector is reported not unique. -/
def isUniqueSelector (bad : Sel → Bool) (t : Elem) (sel : Sel)
    (target : List Nat) : Bool :=
  if bad sel then false
  else decide (querySelectorAll t sel = [target])

/-- The real oracle: every AST selector renders to valid syntax. -/
def noBad : Sel → Bool := fun _ => false

/-! ## `getElementSelector` (lines 717–816) -/

/-- The `tag` / `tag:nth-of-type(k)` segment computed for a node (both
for the element itself, lines 768–781, and for each ancestor,
lines 788–801): the index is appended when the node is not the first of
its type or the bare tag is not unique. -/
def segOf (bad : Sel → Bool) (t : Elem) (p : List Nat) : SimpleSel :=
  let e := elemAtD t p
  let k := 1 + prevSameTagCount t p
  if 1 < k || !(isUniqueSelector bad t [.tagSel e.tag] p) then .tagNth e.tag k
  else .tagSel e.tag

/-- Why the ancestry loop of strategy 4 stopped. -/
inductive PathExit where
  | foundUnique
  | hitDepthBound
  | hitRoot
deriving DecidableEq

/-- The `while (currentElement.parentElement && path.length < maxDepth)`
loop (lines 786–810): `rcur` is the reversed path of the current element,
`acc` the selector path built so far.  Returns the chain together with
the reason the loop stopped. -/
def ancLoop (bad : Sel → Bool) (t : Elem) (target : List Nat) :
    List Nat → List SimpleSel → List SimpleSel × PathExit
  | [], acc => (acc, .hitRoot)
  | _ :: rq, acc =>
    if 5 ≤ acc.length then (acc, .hitDepthBound)
    else
      let acc' := segOf bad t rq.reverse :: acc
      if isUniqueSelector bad t acc' target then (acc', .foundUnique)
      else ancLoop bad t target rq acc'

/-- Strategy 4 (ancestry path): starts from the element's own segment and
prepends ancestor segments, re-testing uniqueness after each prepend. -/
def pathStrategy (bad : Sel → Bool) (t : Elem) (p : List Nat) :
    List SimpleSel × PathExit :=
  ancLoop bad t p p.reverse [segOf bad t p]

/-- Strategy 2 (lines 729–748): each single class token, then the
combination of all tokens. -/
def classStrategy (bad : Sel → Bool) (t : Elem) (p : List Nat) (e : Elem) :
    Option Sel :=
  let tokens := classTokens e.className
  if tokens.isEmpty then none
  else
    match tokens.findSome? (fun c =>
        if isUniqueSelector bad t [.classSel [c]] p
        then some [SimpleSel.classSel [c]] else none) with
    | some s => some s
    | none =>
      if isUniqueSelector bad t [.classSel tokens] p
      then some [SimpleSel.classSel tokens] else none

/-- The fixed attribute allow-list of strategy 3 (line 753). -/
def commonAttributes : List String :=
  ["name", "data-testid", "role", "type", "aria-label", "value", "placeholder"]

/-- Strategy 3 (lines 750–763): `tag[attr="value"]` for the first
allow-listed attribute giving a unique selector. -/
def attrStrategy (bad : Sel → Bool) (t : Elem) (p : List Nat) (e : Elem) :
    Option Sel :=
  commonAttributes.findSome? fun a =>
    match attrVal e a with
    | some v =>
      if isUniqueSelector bad t [.attrSel e.tag a v] p
      then some [SimpleSel.attrSel e.tag a v] else none
    | none => none

/-- `getElementSelector(element)` — lines 717–816. -/
def getElementSelector (bad : Sel → Bool) (t : Elem) (p : List Nat) : Sel :=
  let e := elemAtD t p
  if (e.idAttr != "") && isUniqueSelector bad t [.idSel e.idAttr] p then
    [.idSel e.idAttr]
  else
    match classStrategy bad t p e with
    | some s => s
    | none =>
      match attrStrategy bad t p e with
      | some s => s
      | none => (pathStrategy bad t p).1

/-! ## `getElementXPath` (lines 847–878) -/

/-- One XPath step: lowercased tag plus `[index + 1]` when the node has
preceding same-tag element siblings (lines 860–871). -/
def xpathSeg (t : Elem) (p : List Nat) : String :=
  let idx := prevSameTagCount t p
  (elemAtD t p).tag ++ (if idx ≠ 0 then "[" ++ toString (idx + 1) ++ "]" else "")

/-- Observable result of the `for (; element; element = element.parentNode)`
walk with `paths.unshift(...)`: the steps for the root down to the node.
The argument is the node's reversed path. -/
def xpathSegsUp (t : Elem) : List Nat → List String
  | [] => [xpathSeg t []]
  | i :: rq => xpathSegsUp t rq ++ [xpathSeg t (rq.reverse ++ [i])]

/-- `getElementXPath(element)` — lines 847–878. -/
def getElementXPath (t : Elem) (p : List Nat) : Option String :=
  let e := elemAtD t p
  if e.idAttr ≠ "" then some ("//*[@id=\"" ++ e.idAttr ++ "\"]")
  else
    let paths := xpathSegsUp t p.reverse
    if paths.isEmpty then none
    else some ("/" ++ String.intercalate "/" paths)

/-- Modelled from the claim's wording: each segment is the element's
lowercased tag name followed by an index `[k]` with `k = 1 +` the count of
preceding same-tag sibling elements, the index omitted when that count is
zero; segments cover the ancestors from the document root to the node. -/
def claimXPathSeg (t : Elem) (q : List Nat) : String :=
  let k := prevSameTagCount t q
  if k = 0 then (elemAtD t q).tag
  else (elemAtD t q).tag ++ "[" ++ toString (1 + k) ++ "]"

/-- Modelled from the claim's wording: id-based direct path when the node
has an id, otherwise the `/`-joined absolute path from the root. -/
def claimXPath (t : Elem) (p : List Nat) : String :=
  if (elemAtD t p).idAttr ≠ "" then "//*[@id=\"" ++ (elemAtD t p).idAttr ++ "\"]"
  else "/" ++ String.intercalate "/" (p.inits.map (claimXPathSeg t))

/-! ## Dynamic-element classification (`handleElementClick`, lines 594–610)

The selection handler computes `isDynamic` from (a) the insertion
timestamp the mutation observer stored for the node (lines 400–416,
`domNodeCreationTimes.set(node, Date.now())`), compared against the
current `Date.now()` with a 2000 ms window, and (b) the `/\d{4,}/` test
on the element's `id` and `className`. -/

/-- The `isDynamic` computation of `handleElementClick`:
`creation` is the recorded insertion timestamp (`none` when the mutation
observer never saw the node), `now` the time of the click. -/
def isDynamicCheck (creation : Option Int) (now : Int)
    (idStr classStr : String) : Bool :=
  let byTime :=
    match creation with
    | some tc => decide (now - tc < 2000)
    | none => false
  if byTime then true
  else hasDigitRun4 idStr || hasDigitRun4 classStr

/-! ## Locator composition (`getPlaywrightLocator` lines 919–1038,
`getSeleniumLocator` lines 1049–1098)

`locators.sort((a, b) => b.score - a.score)` is a stable descending sort
(ECMAScript `Array.prototype.sort` is stable), modelled by a stable
insertion sort: an element is inserted after every already-placed
element of greater-or-equal score. -/

structure Cand where
  str : String
  score : Nat
deriving DecidableEq

def insertDesc (x : Cand) : List Cand → List Cand
  | [] => [x]
  | y :: ys => if y.score ≤ x.score then x :: y :: ys else y :: insertDesc x ys

def sortByScoreDesc (l : List Cand) : List Cand := l.foldr insertDesc []

/-- Landmark tags of the semantic-parent probe (line 929). -/
def landmarkTags : List String := ["form", "main", "section", "article", "tr"]

/-- The wrapper expression emitted for a found semantic parent
(lines 930–932). -/
def semParentExpr (c : Elem) : String :=
  match attrVal c "data-testid" with
  | some v => "getByTestId('" ++ v ++ "')"
  | none =>
    match attrVal c "aria-label" with
    | some a => "getByRole('region', \x7b name: '" ++ escSQ a ++ "' \x7d)"
    | none => "locator('" ++ c.tag ++ "')"

/-- The `while (current && depth < 4)` ancestor walk of
`getSemanticParent` (lines 924–938); `rq` is the reversed path of the
current candidate ancestor. -/
def semParentGo (t : Elem) : List Nat → Nat → Option String
  | [], depth =>
    if 4 ≤ depth then none
    else
      let c := elemAtD t []
      if landmarkTags.contains c.tag || (attrVal c "data-testid").isSome then
        some (semParentExpr c)
      else none
  | i :: rq', depth =>
    if 4 ≤ depth then none
    else
      let c := elemAtD t (i :: rq').reverse
      if landmarkTags.contains c.tag || (attrVal c "data-testid").isSome then
        some (semParentExpr c)
      else semParentGo t rq' (depth + 1)

def getSemanticParent (t : Elem) (p : List Nat) : Option String :=
  match p.reverse with
  | [] => none
  | _ :: rqParent => semParentGo t rqParent 0

/-- `getRelativeContext` (lines 941–948): for an `input` whose
immediately preceding element sibling is a `label` with truthy
`innerText`, a `getByLabel` qualifier built from the label's trimmed
text. -/
def getRelativeContext (t : Elem) (p : List Nat) : Option String :=
  let e := elemAtD t p
  if e.tag != "input" then none
  else
    match parentIdx p with
    | none => none
    | some (q, i) =>
      if i = 0 then none
      else
        let prev := (elemAtD t q).children.getD (i - 1) default
        if prev.tag == "label" && prev.innerText != "" then
          some ("getByLabel('" ++ escSQ (jsTrim prev.innerText) ++ "')")
        else none

/-- Role inference from tag/type (lines 976–987). -/
def inferRole (e : Elem) : Option String :=
  match attrVal e "role" with
  | some r => some r
  | none =>
    let tag := e.tag
    let ty := getAttr e "type"
    if tag == "button" ||
        (tag == "input" &&
          (ty == some "button" || ty == some "submit" || ty == some "reset")) then
      some "button"
    else if tag == "a" && hasAttr e "href" then some "link"
    else if tag == "input" && ty == some "checkbox" then some "checkbox"
    else if tag == "input" && ty == some "radio" then some "radio"
    else if tag == "select" then some "combobox"
    else if tag == "input" then some "textbox"
    else if ["h1", "h2", "h3", "h4", "h5", "h6"].contains tag then some "heading"
    else none

/-- Accessible name for the role candidate (lines 990–993):
`aria-label || title || alt`, else the first line of the trimmed
`innerText`, truncated to 50 characters. -/
def roleName (e : Elem) : Option String :=
  match attrVal e "aria-label" with
  | some v => some v
  | none =>
    match attrVal e "title" with
    | some v => some v
    | none =>
      match attrVal e "alt" with
      | some v => some v
      | none =>
        if e.innerText != "" && jsTrim e.innerText != "" then
          some (take50 (firstLine (jsTrim e.innerText)))
        else none

/-- The semantic-parent qualifier prefix (line 952). -/
def pwPrefix (t : Elem) (p : List Nat) : String :=
  match getSemanticParent t p with
  | some sp => sp ++ "."
  | none => ""

/-- Candidate slot 2 (lines 962–973): the associated-label qualifier when
the relative-label probe fires, *else* the placeholder candidate. -/
def pwLabelOrPlaceholder (t : Elem) (p : List Nat) (pfx : String) : List Cand :=
  match getRelativeContext t p with
  | some r => [Cand.mk (pfx ++ r) 85]
  | none =>
    match attrVal (elemAtD t p) "placeholder" with
    | some pv =>
      [Cand.mk (pfx ++ "getByPlaceholder('" ++ pv ++ "')")
        (calculateResilienceScore "placeholder" pv)]
    | none => []

/-- The scored Playwright candidate list, in generation order
(lines 954–1019). -/
def pwCandidates (bad : Sel → Bool) (t : Elem) (p : List Nat) : List Cand :=
  let e := elemAtD t p
  let pfx := pwPrefix t p
  let cand1 :=
    match attrVal e "data-testid" with
    | some v =>
      [Cand.mk (pfx ++ "getByTestId('" ++ v ++ "')")
        (calculateResilienceScore "testid" v)]
    | none => []
  let cand2 := pwLabelOrPlaceholder t p pfx
  let cand3 :=
    match inferRole e with
    | some role =>
      match roleName e with
      | some nm =>
        [Cand.mk (pfx ++ "getByRole('" ++ role ++ "', \x7b name: '" ++
            escSQ nm ++ "' \x7d)")
          (calculateResilienceScore "role" role)]
      | none => []
    | none => []
  let cand4 :=
    if e.innerText != "" && jsTrim e.innerText != "" && e.children.isEmpty then
      let tx := take50 (firstLine (jsTrim e.innerText))
      [Cand.mk (pfx ++ "getByText('" ++ escSQ tx ++ "')")
        (calculateResilienceScore "text" tx)]
    else []
  let css := renderSel (getElementSelector bad t p)
  let cand5 :=
    [Cand.mk ("locator('" ++ escSQ css ++ "')")
      (calculateResilienceScore "css" css)]
  cand1 ++ cand2 ++ cand3 ++ cand4 ++ cand5

/-- The escaped structural selector used both by the css fallback and by
the dynamic-wait wrapper (line 1015). -/
def escapedCssOf (bad : Sel → Bool) (t : Elem) (p : List Nat) : String :=
  escSQ (renderSel (getElementSelector bad t p))

/-- Top-3 candidate strings after the stable descending sort
(lines 1022–1023). -/
def pwTops (bad : Sel → Bool) (t : Elem) (p : List Nat) : List String :=
  ((sortByScoreDesc (pwCandidates bad t p)).map (·.str)).take 3

/-- `resultLocator`: the top candidates joined with `.or(page. ...)`
(lines 1025–1031). -/
def playwrightBody (bad : Sel → Bool) (t : Elem) (p : List Nat) : String :=
  match pwTops bad t p with
  | [] => ""
  | t0 :: rest => rest.foldl (fun acc s => acc ++ ".or(page." ++ s ++ ")") t0

/-- The dynamic-element wait header of grammar A (line 1034). -/
def pwWaitHeaderOf (css : String) : String :=
  "// DYNAMIC ELEMENT WAITER\nawait page.waitForSelector('" ++ css ++
    "', \x7b state: 'visible', timeout: 5000 \x7d);\nawait page."

/-- `getPlaywrightLocator(element, isDynamic)` — lines 919–1038. -/
def getPlaywrightLocator (bad : Sel → Bool) (t : Elem) (p : List Nat)
    (isDynamic : Bool) : String :=
  if isDynamic then
    pwWaitHeaderOf (escapedCssOf bad t p) ++ playwrightBody bad t p
  else
    "page." ++ playwrightBody bad t p

/-- The scored Selenium candidate list (lines 1057–1082).  The oracle is
queried with `#escapeCssStr(id)` resp. `tag[name="escapeCssStr(v)"]`;
at the AST level both match exactly the nodes with that literal id /
name value, so the AST selector carries the unescaped value. -/
def selCandidates (bad : Sel → Bool) (t : Elem) (p : List Nat) : List Cand :=
  let e := elemAtD t p
  let c1 :=
    if e.idAttr != "" && isUniqueSelector bad t [.idSel e.idAttr] p then
      [Cand.mk ("By.id(\"" ++ e.idAttr ++ "\")")
        (calculateResilienceScore "id" e.idAttr)]
    else []
  let c2 :=
    match attrVal e "name" with
    | some nv =>
      if isUniqueSelector bad t [.attrSel e.tag "name" nv] p then
        [Cand.mk ("By.name(\"" ++ nv ++ "\")")
          (calculateResilienceScore "name" nv)]
      else []
    | none => []
  let css := renderSel (getElementSelector bad t p)
  let c3 :=
    [Cand.mk ("By.cssSelector(\"" ++ escDQ css ++ "\")")
      (calculateResilienceScore "css" css)]
  c1 ++ c2 ++ c3

/-- Top-2 candidate strings after the stable descending sort
(lines 1085–1086). -/
def selTops (bad : Sel → Bool) (t : Elem) (p : List Nat) : List String :=
  ((sortByScoreDesc (selCandidates bad t p)).map (·.str)).take 2

/-- The dynamic-element wait prepended by grammar B (line 1090). -/
def selWaitOf (loc : String) : String :=
  "WebDriverWait wait = new WebDriverWait(driver, Duration.ofSeconds(5));\n" ++
    "wait.until(ExpectedConditions.visibilityOfElementLocated(" ++ loc ++ "));\n"

/-- `waitStr` (lines 1088–1091): the explicit wait targeting the primary
(top-scored) locator, or empty. -/
def seleniumWaitStr (bad : Sel → Bool) (t : Elem) (p : List Nat)
    (isDynamic : Bool) : String :=
  if isDynamic then selWaitOf ((selTops bad t p).headD "") else ""

/-- The two-attempt try/recover pair of grammar B (line 1096). -/
def tryCatchStr (l0 l1 : String) : String :=
  "WebElement element;\ntry \x7b\n    element = driver.findElement(" ++ l0 ++
    ");\n\x7d catch (NoSuchElementException e) \x7b\n    element = driver.findElement(" ++
    l1 ++ ");\n\x7d"

/-- The locator attempt(s) following `waitStr` (lines 1093–1097): a
single `findElement` when only one candidate survived, else the
try/recover pair.  (`selTops` is never empty: the css fallback is always
generated.) -/
def seleniumBody (bad : Sel → Bool) (t : Elem) (p : List Nat) : String :=
  match selTops bad t p with
  | [l0] => "driver.findElement(" ++ l0 ++ ")"
  | l0 :: l1 :: _ => tryCatchStr l0 l1
  | [] => ""

/-- `getSeleniumLocator(element, isDynamic)` — lines 1049–1098. -/
def getSeleniumLocator (bad : Sel → Bool) (t : Elem) (p : List Nat)
    (isDynamic : Bool) : String :=
  seleniumWaitStr bad t p isDynamic ++ seleniumBody bad t p

/-! ## Wait-instruction predicates and concrete documents -/

/-- Grammar A output carries an explicit wait: it is prefixed by the
wait-for-visible header (`// DYNAMIC ELEMENT WAITER ... waitForSelector
(..., timeout: 5000)`), exactly the containment the composer can
produce. -/
def HasWaitA (out : String) : Prop :=
  ∃ css rest, out = pwWaitHeaderOf css ++ rest

/-- Grammar B output carries an explicit wait: it is prefixed by the
5-second `WebDriverWait` / `visibilityOfElementLocated` instruction. -/
def HasWaitB (out : String) : Prop :=
  ∃ loc rest, out = selWaitOf loc ++ rest

/-- An oracle that rejects every selector (models a host whose
`querySelectorAll` always throws). -/
def rejectAll : Sel → Bool := fun _ => true

/-- A document on which the ancestry-path fallback is returned non-unique
while the walk stopped at the document root, *not* at the 5-level depth
bound: the root `html` has a nested `html` child, and each `html` has a
`div` whose full qualified path is `html:nth-of-type(1) >
div:nth-of-type(1)` — matched by both `div`s. -/
def ceInnerDiv : Elem := .el "div" "" "" [] "" []

def ceInnerHtml : Elem := .el "html" "" "" [] "" [ceInnerDiv]

def ceOuterDiv : Elem := .el "div" "" "" [] "" []

def ceDoc : Elem := .el "html" "" "" [] "" [ceInnerHtml, ceOuterDiv]

/-- The PIN Code scenario: a `label` followed by an `input` with `name`
and `placeholder` attributes, no test-id, no id, no class. -/
def pinLabel : Elem := .el "label" "" "" [] "PIN Code" []

def pinInput : Elem :=
  .el "input" "" "" [("name", "pincode"), ("placeholder", "PIN Code")] "" []

def pinDoc : Elem := .el "body" "" "" [] "" [pinLabel, pinInput]

/-! ## Theorems -/

theorem digitRunAux_iff (l : List Char) :
    ∀ run : Nat, run < 4 →
      (digitRunAux l run = true ↔
        (∃ p : List Char, p <+: l ∧ (∀ c ∈ p, c.isDigit) ∧ 4 ≤ run + p.length)
          ∨ DigitRun4L l) := by
  induction l with
  | nil =>
    intro run hrun
    constructor
    · intro h; cases h
    · rintro (⟨p, hp, _, hlen⟩ | ⟨a, m, b, habm, hm4, _⟩)
      · have hp0 : p = [] := List.prefix_nil.mp hp
        subst hp0
        simp at hlen
        omega
      · have := congrArg List.length habm
        simp [hm4] at this
        exact absurd this (by omega)
  | cons c rest ih =>
    intro run hrun
    by_cases hc : c.isDigit
    · by_cases h4 : 4 ≤ run + 1
      · have hL : digitRunAux (c :: rest) run = true := by
          simp [digitRunAux, hc, h4]
        constructor
        · intro _
          exact Or.inl ⟨[c], ⟨rest, rfl⟩, by simpa using hc, by simpa using h4⟩
        · intro _
          exact hL
      · have hstep : digitRunAux (c :: rest) run = digitRunAux rest (run + 1) := by
          simp [digitRunAux, hc, h4]
        rw [hstep, ih (run + 1) (by omega)]
        constructor
        · rintro (⟨p, hp, hdig, hlen⟩ | hrun4)
          · left
            obtain ⟨t, ht⟩ := hp
            refine ⟨c :: p, ⟨t, by simp [ht]⟩, ?_, ?_⟩
            · intro x hx
              rcases List.mem_cons.mp hx with h | h
              · exact h ▸ hc
              · exact hdig x h
            · simp
              omega
          · right
            obtain ⟨a, m, b, hab, hm4, hmd⟩ := hrun4
            exact ⟨c :: a, m, b, by simp [hab], hm4, hmd⟩
        · rintro (⟨p, hp, hdig, hlen⟩ | hrun4)
          · match p, hp, hdig, hlen with
            | [], _, _, hlen => simp at hlen; omega
            | q :: p', hp, hdig, hlen =>
              obtain ⟨t, ht⟩ := hp
              simp at ht
              left
              refine ⟨p', ⟨t, ht.2⟩, fun x hx => hdig x (by simp [hx]), ?_⟩
              simp at hlen
              omega
          · obtain ⟨a, m, b, hab, hm4, hmd⟩ := hrun4
            match a, hab with
            | [], hab =>
              match m, hm4, hmd with
              | m0 :: m', hm4, hmd =>
                simp at hab
                left
                refine ⟨m', ⟨b, hab.2.symm⟩, fun x hx => hmd x (by simp [hx]), ?_⟩
                simp at hm4
                omega
            | a0 :: a', hab =>
              right
              simp at hab
              exact ⟨a', m, b, by simp [hab.2], hm4, hmd⟩
    · have hstep : digitRunAux (c :: rest) run = digitRunAux rest 0 := by
        simp [digitRunAux, hc]
      rw [hstep, ih 0 (by omega)]
      constructor
      · rintro (⟨p, hp, hdig, hlen⟩ | hrun4)
        · right
          obtain ⟨t, ht⟩ := hp
          refine ⟨[c], p.take 4, p.drop 4 ++ t, ?_, ?_, ?_⟩
          · have h2 : List.take 4 p ++ (List.drop 4 p ++ t) = p ++ t := by
              rw [← List.append_assoc, List.take_append_drop]
            rw [← ht, List.append_assoc, h2]
            rfl
          · simp
            omega
          · intro x hx
            exact hdig x (List.take_subset 4 p hx)
        · right
          obtain ⟨a, m, b, hab, hm4, hmd⟩ := hrun4
          exact ⟨c :: a, m, b, by simp [hab], hm4, hmd⟩
      · rintro (⟨p, hp, hdig, hlen⟩ | hrun4)
        · match p, hp, hdig, hlen with
          | [], _, _, hlen => simp at hlen; omega
          | q :: p', hp, hdig, hlen =>
            obtain ⟨t, ht⟩ := hp
            simp at ht
            exfalso
            exact absurd (ht.1 ▸ hdig q (by simp)) hc
        · obtain ⟨a, m, b, hab, hm4, hmd⟩ := hrun4
          match a, hab with
          | [], hab =>
            match m, hm4, hmd with
            | m0 :: m', _, hmd =>
              simp at hab
              exfalso
              exact absurd (hab.1 ▸ hmd m0 (by simp)) hc
          | a0 :: a', hab =>
            right
            simp at hab
            exact ⟨a', m, b, by simp [hab.2], hm4, hmd⟩

/-- The scanner decides exactly the declarative "four consecutive digits"
property. -/
theorem hasDigitRun4_iff (s : String) : hasDigitRun4 s = true ↔ DigitRun4 s := by
  unfold hasDigitRun4 DigitRun4
  rw [digitRunAux_iff s.data 0 (by omega)]
  constructor
  · rintro (⟨p, hp, hdig, hlen⟩ | h)
    · obtain ⟨t, ht⟩ := hp
      refine ⟨[], p.take 4, p.drop 4 ++ t, ?_, by simp; omega, ?_⟩
      · have h2 : List.take 4 p ++ (List.drop 4 p ++ t) = p ++ t := by
          rw [← List.append_assoc, List.take_append_drop]
        rw [List.nil_append, h2, ht]
      · intro x hx
        exact hdig x (List.take_subset 4 p hx)
    · exact h
  · intro h; right; exact h

theorem leadsWith_iff (p l : List Char) :
    leadsWith p l = true ↔ ∃ b, l = p ++ b := by
  induction p generalizing l with
  | nil => simp [leadsWith]
  | cons x xs ih =>
    cases l with
    | nil =>
      simp [leadsWith]
    | cons c cs =>
      simp only [leadsWith, Bool.and_eq_true, decide_eq_true_eq, ih]
      constructor
      · rintro ⟨hx, b, hb⟩
        exact ⟨b, by simp [hx, hb]⟩
      · rintro ⟨b, hb⟩
        simp at hb
        exact ⟨hb.1.symm, b, hb.2⟩

theorem hasSubList_iff (pat l : List Char) :
    hasSubList pat l = true ↔ SubOccurs l pat := by
  induction l with
  | nil =>
    simp only [hasSubList, leadsWith_iff, SubOccurs]
    constructor
    · rintro ⟨b, hb⟩
      exact ⟨[], b, by simp [hb]⟩
    · rintro ⟨a, b, hab⟩
      have : a = [] ∧ pat ++ b = [] := by
        cases a with
        | nil => simp at hab; simp [hab]
        | cons y ys => simp at hab
      obtain ⟨_, h2⟩ := this
      simp at h2
      exact ⟨[], by simp [h2.1]⟩
  | cons c cs ih =>
    simp only [hasSubList, Bool.or_eq_true, leadsWith_iff, ih, SubOccurs]
    constructor
    · rintro (⟨b, hb⟩ | ⟨a, b, hab⟩)
      · exact ⟨[], b, by simp [hb]⟩
      · exact ⟨c :: a, b, by simp [hab]⟩
    · rintro ⟨a, b, hab⟩
      cases a with
      | nil =>
        left
        simp at hab
        exact ⟨b, hab⟩
      | cons y ys =>
        right
        simp at hab
        exact ⟨ys, b, by simp [hab.2]⟩

theorem splitGt_ne_nil (l : List Char) : splitGt l ≠ [] := by
  induction l with
  | nil => simp [splitGt]
  | cons c cs ih =>
    simp only [splitGt]
    split
    · simp
    · match h : splitGt cs with
      | [] => exact absurd h ih
      | r :: rs => simp

/-- `split('>')` produces one more part than the number of `'>'`
characters. -/
theorem splitGt_length (l : List Char) :
    (splitGt l).length = l.count '>' + 1 := by
  induction l with
  | nil => simp [splitGt]
  | cons c cs ih =>
    simp only [splitGt]
    by_cases hc : c = '>'
    · simp [hc, List.count_cons, ih]
    · simp only [if_neg hc]
      match h : splitGt cs with
      | [] => exact absurd h (splitGt_ne_nil cs)
      | r :: rs =>
        rw [h] at ih
        simp only [List.length_cons] at ih ⊢
        simp [List.count_cons, hc, ih]

/-! ## Structure of the `getElementSelector` cascade -/

theorem findSome?_inv {α β : Type} (f : α → Option β) (l : List α) (b : β)
    (h : l.findSome? f = some b) : ∃ a ∈ l, f a = some b := by
  induction l with
  | nil => simp [List.findSome?] at h
  | cons x xs ih =>
    rw [List.findSome?] at h
    cases hx : f x with
    | some v =>
      rw [hx] at h
      exact ⟨x, by simp, by simp [hx, ← h]⟩
    | none =>
      rw [hx] at h
      obtain ⟨a, ha, hfa⟩ := ih h
      exact ⟨a, by simp [ha], hfa⟩

theorem classStrategy_unique (bad : Sel → Bool) (t : Elem) (p : List Nat)
    (e : Elem) (s : Sel) (h : classStrategy bad t p e = some s) :
    isUniqueSelector bad t s p = true := by
  simp only [classStrategy] at h
  split at h
  · exact absurd h (by simp)
  · split at h
    · rename_i s' hfind
      obtain ⟨c, _, hc⟩ := findSome?_inv _ _ _ hfind
      split at hc
      · rename_i hu
        cases h
        cases hc
        exact hu
      · cases hc
    · split at h
      · rename_i hu
        cases h
        exact hu
      · cases h

theorem attrStrategy_unique (bad : Sel → Bool) (t : Elem) (p : List Nat)
    (e : Elem) (s : Sel) (h : attrStrategy bad t p e = some s) :
    isUniqueSelector bad t s p = true := by
  simp only [attrStrategy] at h
  obtain ⟨a, _, ha⟩ := findSome?_inv _ _ _ h
  split at ha
  · split at ha
    · rename_i hu
      cases ha
      exact hu
    · cases ha
  · cases ha

theorem ancLoop_foundUnique (bad : Sel → Bool) (t : Elem) (target : List Nat) :
    ∀ (rcur : List Nat) (acc c : List SimpleSel),
      ancLoop bad t target rcur acc = (c, .foundUnique) →
      isUniqueSelector bad t c target = true := by
  intro rcur
  induction rcur with
  | nil =>
    intro acc c h
    simp [ancLoop] at h
  | cons i rq ih =>
    intro acc c h
    simp only [ancLoop] at h
    split at h
    · simp at h
    · split at h
      · rename_i hu
        rw [Prod.mk.injEq] at h
        exact h.1 ▸ hu
      · exact ih _ _ h

/-- Every result of the cascade is either verified unique by the oracle,
or is the strategy-4 path whose loop ended without a passed re-test. -/
theorem getElementSelector_cases (bad : Sel → Bool) (t : Elem) (p : List Nat) :
    isUniqueSelector bad t (getElementSelector bad t p) p = true ∨
      (getElementSelector bad t p = (pathStrategy bad t p).1 ∧
        (pathStrategy bad t p).2 ≠ .foundUnique) := by
  simp only [getElementSelector]
  split
  · rename_i hguard
    left
    exact (Bool.and_eq_true _ _ |>.mp hguard).2
  · split
    · rename_i s hcs
      left
      exact classStrategy_unique bad t p _ s hcs
    · split
      · rename_i s has
        left
        exact attrStrategy_unique bad t p _ s has
      · match hps : pathStrategy bad t p with
        | (c, .foundUnique) =>
          left
          exact ancLoop_foundUnique bad t p p.reverse [segOf bad t p] c hps
        | (c, .hitDepthBound) =>
          right
          exact ⟨rfl, by simp⟩
        | (c, .hitRoot) =>
          right
          exact ⟨rfl, by simp⟩

theorem xpathSeg_eq_claim (t : Elem) (q : List Nat) :
    xpathSeg t q = claimXPathSeg t q := by
  unfold xpathSeg claimXPathSeg
  by_cases h : prevSameTagCount t q = 0
  · simp [h]
  · simp [h, Nat.add_comm, String.append_assoc]

theorem xpathSegsUp_eq_inits (t : Elem) (rp : List Nat) :
    xpathSegsUp t rp = rp.reverse.inits.map (xpathSeg t) := by
  induction rp with
  | nil => simp [xpathSegsUp]
  | cons i rq ih =>
    rw [xpathSegsUp, ih]
    have : (rq.reverse ++ [i]).inits = rq.reverse.inits ++ [rq.reverse ++ [i]] := by
      rw [List.inits_append]
      simp
    simp [this]

/-! ## Properties of the stable descending sort -/

theorem mem_insertDesc {z x : Cand} {l : List Cand} :
    z ∈ insertDesc x l ↔ z = x ∨ z ∈ l := by
  induction l with
  | nil => simp [insertDesc]
  | cons y ys ih =>
    rw [insertDesc]
    split
    · simp
    · simp [ih]
      tauto

theorem insertDesc_perm (x : Cand) (l : List Cand) :
    (insertDesc x l).Perm (x :: l) := by
  induction l with
  | nil => simp [insertDesc]
  | cons y ys ih =>
    rw [insertDesc]
    split
    · exact List.Perm.refl _
    · exact (ih.cons y).trans (List.Perm.swap x y ys)

theorem sortByScoreDesc_perm (l : List Cand) :
    (sortByScoreDesc l).Perm l := by
  induction l with
  | nil => exact List.Perm.refl _
  | cons a l ih =>
    have h1 : sortByScoreDesc (a :: l) = insertDesc a (sortByScoreDesc l) := rfl
    rw [h1]
    exact (insertDesc_perm a (sortByScoreDesc l)).trans (ih.cons a)

theorem insertDesc_sorted (x : Cand) (l : List Cand)
    (h : l.Pairwise fun a b => b.score ≤ a.score) :
    (insertDesc x l).Pairwise fun a b => b.score ≤ a.score := by
  induction l with
  | nil => simp [insertDesc]
  | cons y ys ih =>
    rw [insertDesc]
    split
    · rename_i hle
      refine List.pairwise_cons.mpr ⟨?_, h⟩
      intro z hz
      rcases List.mem_cons.mp hz with rfl | hz
      · exact hle
      · exact le_trans ((List.pairwise_cons.mp h).1 z hz) hle
    · rename_i hgt
      have hys := (List.pairwise_cons.mp h).2
      refine List.pairwise_cons.mpr ⟨?_, ih hys⟩
      intro z hz
      rcases mem_insertDesc.mp hz with rfl | hz
      · omega
      · exact (List.pairwise_cons.mp h).1 z hz

theorem sortByScoreDesc_sorted (l : List Cand) :
    (sortByScoreDesc l).Pairwise fun a b => b.score ≤ a.score := by
  induction l with
  | nil => simp [sortByScoreDesc]
  | cons a l ih =>
    have h1 : sortByScoreDesc (a :: l) = insertDesc a (sortByScoreDesc l) := rfl
    rw [h1]
    exact insertDesc_sorted a _ ih

/-! ## Claim theorems -/

/-- Claim C1 (code bug): the scorer's `id`/`class` digit-run penalty never
fires.  The regex literal `/\\d{4,}/` at lines 894/899 matches a literal
backslash followed by four `d` characters, not a digit run, so
`'btn12345'` — which does contain a 4-digit run per the `/\d{4,}/`
reading used elsewhere (line 607) and per the claim — is scored 70 as an
id and 40 as a class instead of 10. -/
theorem c1_digit_run_penalty_never_fires :
    calculateResilienceScore "id" "btn12345" = 70 ∧
      calculateResilienceScore "class" "btn12345" = 40 ∧
      DigitRun4 "btn12345" ∧
      hasBsDddd "btn12345".data = false := by
  refine ⟨by decide, by decide, ?_, by decide⟩
  exact (hasDigitRun4_iff "btn12345").mp (by decide)

/-- Claim C5 (counterexample): the scorer has no `label` branch; a
`label`-kind pair falls through to the default `0`, not the claimed
fixed 85 (the 85 for label candidates is hard-coded at composition,
line 966, not produced by the scorer). -/
theorem c5_counterexample :
    calculateResilienceScore "label" "PIN Code" = 0 ∧
      calculateResilienceScore "label" "PIN Code" ≠ 85 := by
  exact ⟨by decide, by decide⟩

/-- Claim C5 (amended): fixed scores testid 100, role 90, placeholder 80,
name 65, text 60 for every value; `label` is not a kind the scorer
handles and scores the default 0; a `css` value scores 15 exactly when it
contains `:nth-of-type` or has more than 3 `>`-separated segments
(equivalently at least 3 `>` characters), and 30 otherwise. -/
theorem c5_amended_fixed_scores (v : String) :
    calculateResilienceScore "testid" v = 100 ∧
      calculateResilienceScore "role" v = 90 ∧
      calculateResilienceScore "placeholder" v = 80 ∧
      calculateResilienceScore "name" v = 65 ∧
      calculateResilienceScore "text" v = 60 ∧
      calculateResilienceScore "label" v = 0 ∧
      (calculateResilienceScore "css" v = 15 ↔
        SubOccurs v.data ":nth-of-type".data ∨ 3 ≤ v.data.count '>') ∧
      (calculateResilienceScore "css" v = 15 ∨
        calculateResilienceScore "css" v = 30) := by
  refine ⟨rfl, rfl, rfl, rfl, rfl, rfl, ?_, ?_⟩
  · have hcss : calculateResilienceScore "css" v =
        if strIncludes v ":nth-of-type" || 3 < (splitGt v.data).length
        then 15 else 30 := rfl
    rw [hcss]
    by_cases h : strIncludes v ":nth-of-type" || 3 < (splitGt v.data).length
    · rw [if_pos h]
      simp only [true_iff]
      rcases Bool.or_eq_true _ _ |>.mp h with h1 | h1
      · exact Or.inl (hasSubList_iff _ _ |>.mp h1)
      · right
        have := splitGt_length v.data
        simp at h1
        omega
    · rw [if_neg h]
      simp only [Bool.or_eq_true, not_or] at h
      constructor
      · intro h30; cases h30
      · rintro (hs | hc)
        · exact absurd (hasSubList_iff _ _ |>.mpr hs) (by simpa using h.1)
        · have := splitGt_length v.data
          have h2 := h.2
          simp at h2
          omega
  · have hcss : calculateResilienceScore "css" v =
        if strIncludes v ":nth-of-type" || 3 < (splitGt v.data).length
        then 15 else 30 := rfl
    rw [hcss]
    split
    · exact Or.inl rfl
    · exact Or.inr rfl

/-- Claim C10: the scorer always returns a value in `[0, 100]` (`Nat`, so
the lower bound is inherent), and returns exactly 0 for any kind outside
the enumerated set. -/
theorem c10_score_bounds (ty v : String) :
    calculateResilienceScore ty v ≤ 100 ∧
      (ty ∉ ["testid", "role", "placeholder", "text", "id", "name",
          "class", "css"] →
        calculateResilienceScore ty v = 0) := by
  constructor
  · unfold calculateResilienceScore
    split_ifs <;> omega
  · intro hmem
    simp only [List.mem_cons, List.not_mem_nil, or_false, not_or] at hmem
    obtain ⟨h1, h2, h3, h4, h5, h6, h7, h8⟩ := hmem
    unfold calculateResilienceScore
    rw [if_neg h1, if_neg h2, if_neg h3, if_neg h4, if_neg h5, if_neg h6,
      if_neg h7, if_neg h8]

/-- Claim C10 witness: an `xpath`-kind pair is outside the enumerated set
and scores 0 (and is within bounds). -/
theorem c10_witness :
    calculateResilienceScore "xpath" "/html/body" ≤ 100 ∧
      calculateResilienceScore "xpath" "/html/body" = 0 :=
  ⟨(c10_score_bounds "xpath" "/html/body").1,
    (c10_score_bounds "xpath" "/html/body").2 (by decide)⟩

/-- Claim C3: the selection-time classification is dynamic exactly when
the mutation observer recorded an insertion timestamp less than 2000 ms
before the check time, or the id or class string contains a run of four
or more consecutive digits. -/
theorem c3_isDynamic_iff (creation : Option Int) (now : Int)
    (idStr classStr : String) :
    isDynamicCheck creation now idStr classStr = true ↔
      (∃ tc, creation = some tc ∧ now - tc < 2000) ∨
        DigitRun4 idStr ∨ DigitRun4 classStr := by
  have hor : (hasDigitRun4 idStr || hasDigitRun4 classStr) = true ↔
      DigitRun4 idStr ∨ DigitRun4 classStr := by
    rw [Bool.or_eq_true, hasDigitRun4_iff, hasDigitRun4_iff]
  cases creation with
  | none =>
    have hred : isDynamicCheck none now idStr classStr =
        (hasDigitRun4 idStr || hasDigitRun4 classStr) := rfl
    rw [hred, hor]
    constructor
    · intro h
      exact Or.inr h
    · rintro (⟨tc, htc, _⟩ | h)
      · cases htc
      · exact h
  | some tc =>
    by_cases ht : now - tc < 2000
    · have hred : isDynamicCheck (some tc) now idStr classStr = true := by
        unfold isDynamicCheck
        simp [ht]
      rw [hred]
      constructor
      · intro _
        exact Or.inl ⟨tc, rfl, ht⟩
      · intro _
        rfl
    · have hred : isDynamicCheck (some tc) now idStr classStr =
          (hasDigitRun4 idStr || hasDigitRun4 classStr) := by
        unfold isDynamicCheck
        simp [ht]
      rw [hred, hor]
      constructor
      · intro h
        exact Or.inr h
      · rintro (⟨tc', htc', hlt⟩ | h)
        · cases htc'
          exact absurd hlt ht
        · exact h

/-- Claim C7: `getElementXPath` returns the id-based direct path when the
node has an id, and otherwise the `/`-joined absolute root-to-node path
whose segments are the lowercased tag plus the `[1 + count]` index,
omitted when the count of preceding same-tag siblings is zero — exactly
the path described by the claim (`claimXPath`). -/
theorem c7_xpath_shape (t : Elem) (p : List Nat) :
    getElementXPath t p = some (claimXPath t p) := by
  unfold getElementXPath claimXPath
  by_cases hid : (elemAtD t p).idAttr ≠ ""
  · rw [if_pos hid, if_pos hid]
  · rw [if_neg hid, if_neg hid]
    have hsegs : xpathSegsUp t p.reverse = p.inits.map (xpathSeg t) := by
      rw [xpathSegsUp_eq_inits, List.reverse_reverse]
    have hne : (xpathSegsUp t p.reverse).isEmpty = false := by
      rw [hsegs]
      have : (p.inits.map (xpathSeg t)).length = p.length + 1 := by
        rw [List.length_map, List.length_inits]
      cases hmap : p.inits.map (xpathSeg t) with
      | nil => rw [hmap] at this; simp at this
      | cons a l => rfl
    rw [if_neg (by simp [hne])]
    rw [hsegs]
    have hmapeq : p.inits.map (xpathSeg t) = p.inits.map (claimXPathSeg t) :=
      List.map_congr_left fun q _ => xpathSeg_eq_claim t q
    rw [hmapeq]

/-- Claim C2 (amended): every selector the cascade returns is verified
unique by the oracle, except when it is the strategy-4 ancestry path
whose loop ended without a passed uniqueness re-test — which happens both
when the 5-level depth bound is exhausted (`hitDepthBound`) and when the
walk reaches the document root first (`hitRoot`). -/
theorem c2_amended_uniqueness (bad : Sel → Bool) (t : Elem) (p : List Nat) :
    isUniqueSelector bad t (getElementSelector bad t p) p = true ∨
      (getElementSelector bad t p = (pathStrategy bad t p).1 ∧
        (pathStrategy bad t p).2 ≠ PathExit.foundUnique) :=
  getElementSelector_cases bad t p

/-- Claim C2 (counterexample): in `ceDoc` the selector synthesized for
the root's `div` child is `html:nth-of-type(1) > div:nth-of-type(1)`,
which matches two nodes — it fails the uniqueness oracle even though the
ancestry walk stopped at the document root after only 2 levels, i.e.
without exhausting the fixed 5-level depth bound. -/
theorem c2_counterexample :
    getElementSelector noBad ceDoc [1] =
        [SimpleSel.tagNth "html" 1, SimpleSel.tagNth "div" 1] ∧
      isUniqueSelector noBad ceDoc (getElementSelector noBad ceDoc [1]) [1]
          = false ∧
      querySelectorAll ceDoc (getElementSelector noBad ceDoc [1]) =
        [[0, 0], [1]] ∧
      (pathStrategy noBad ceDoc [1]).2 = PathExit.hitRoot ∧
      (pathStrategy noBad ceDoc [1]).1.length = 2 := by
  refine ⟨by decide, by decide, by decide, by decide, by decide⟩

/-- Claim C8: (a) a selector the oracle rejects (the modelled
`querySelectorAll` throw, caught at lines 833–837) is reported not
unique, so the cascade moves on to the next strategy; (b) whenever the
returned selector is not verified unique, it is the longest ancestry
path built by the strategy-4 loop, returned as a degraded best-effort
result — the cascade's return type has no failure case. -/
theorem c8_error_handling (bad : Sel → Bool) (t : Elem) (p : List Nat) :
    (∀ s, bad s = true → isUniqueSelector bad t s p = false) ∧
      (isUniqueSelector bad t (getElementSelector bad t p) p = false →
        getElementSelector bad t p = (pathStrategy bad t p).1 ∧
          (pathStrategy bad t p).2 ≠ PathExit.foundUnique) := by
  constructor
  · intro s hs
    unfold isUniqueSelector
    rw [if_pos hs]
  · intro hfail
    rcases getElementSelector_cases bad t p with h | h
    · rw [h] at hfail
      cases hfail
    · exact h

/-- Claim C8 witness: with an always-throwing oracle every selector is
reported not unique; and on the concrete degraded document the returned
selector is exactly the strategy-4 fallback path. -/
theorem c8_witness :
    isUniqueSelector rejectAll ceDoc [SimpleSel.tagSel "div"] [1] = false ∧
      (getElementSelector noBad ceDoc [1] = (pathStrategy noBad ceDoc [1]).1 ∧
        (pathStrategy noBad ceDoc [1]).2 ≠ PathExit.foundUnique) :=
  ⟨(c8_error_handling rejectAll ceDoc [1]).1 [SimpleSel.tagSel "div"] rfl,
    (c8_error_handling noBad ceDoc [1]).2 (by decide)⟩

theorem not_hasWaitA_page (body : String) : ¬ HasWaitA ("page." ++ body) := by
  rintro ⟨css, rest, h⟩
  have hd := congrArg (fun s : String => s.data.head?) h
  simp only [String.data_append, pwWaitHeaderOf] at hd
  simp at hd

theorem not_hasWaitB_driver (body : String) :
    ¬ HasWaitB ("driver.findElement(" ++ body) := by
  rintro ⟨loc, rest, h⟩
  have hd := congrArg (fun s : String => s.data.head?) h
  simp only [String.data_append, selWaitOf] at hd
  simp at hd

theorem not_hasWaitB_tryCatch (l0 l1 : String) :
    ¬ HasWaitB (tryCatchStr l0 l1) := by
  rintro ⟨loc, rest, h⟩
  have hd := congrArg (fun s : String => s.data.get? 3) h
  simp only [String.data_append, selWaitOf, tryCatchStr] at hd
  simp at hd

theorem not_hasWaitB_empty : ¬ HasWaitB "" := by
  rintro ⟨loc, rest, h⟩
  have hd := congrArg (fun s : String => s.data.head?) h
  simp only [String.data_append, selWaitOf] at hd
  simp at hd

theorem not_hasWaitB_body (bad : Sel → Bool) (t : Elem) (p : List Nat) :
    ¬ HasWaitB (seleniumBody bad t p) := by
  rcases htops : selTops bad t p with _ | ⟨l0, _ | ⟨l1, r⟩⟩
  · have h : seleniumBody bad t p = "" := by
      simp [seleniumBody, htops]
    rw [h]
    exact not_hasWaitB_empty
  · have h : seleniumBody bad t p = "driver.findElement(" ++ (l0 ++ ")") := by
      simp [seleniumBody, htops, String.append_assoc]
    rw [h]
    exact not_hasWaitB_driver (l0 ++ ")")
  · have h : seleniumBody bad t p = tryCatchStr l0 l1 := by
      simp [seleniumBody, htops]
    rw [h]
    exact not_hasWaitB_tryCatch l0 l1

/-- Claim C4: the composed locator strings carry an explicit wait exactly
when the element was classified dynamic — grammar A is then prefixed by
the wait-for-visible header on the (escaped) structural selector with the
5000 ms timeout, and grammar B by the 5-second `WebDriverWait` targeting
the primary (top-scored) locator; a non-dynamic element gets neither. -/
theorem c4_dynamic_wait (bad : Sel → Bool) (t : Elem) (p : List Nat)
    (d : Bool) :
    (HasWaitA (getPlaywrightLocator bad t p d) ↔ d = true) ∧
      (HasWaitB (getSeleniumLocator bad t p d) ↔ d = true) ∧
      getPlaywrightLocator bad t p true =
        pwWaitHeaderOf (escapedCssOf bad t p) ++ playwrightBody bad t p ∧
      getSeleniumLocator bad t p true =
        selWaitOf ((selTops bad t p).headD "") ++ seleniumBody bad t p := by
  refine ⟨?_, ?_, rfl, rfl⟩
  · cases d with
    | true =>
      constructor
      · intro _
        rfl
      · intro _
        exact ⟨escapedCssOf bad t p, playwrightBody bad t p, rfl⟩
    | false =>
      constructor
      · intro h
        exact absurd h (not_hasWaitA_page (playwrightBody bad t p))
      · intro h
        cases h
  · cases d with
    | true =>
      constructor
      · intro _
        rfl
      · intro _
        exact ⟨(selTops bad t p).headD "", seleniumBody bad t p, rfl⟩
    | false =>
      constructor
      · intro h
        have hred : getSeleniumLocator bad t p false = seleniumBody bad t p := rfl
        rw [hred] at h
        exact absurd h (not_hasWaitB_body bad t p)
      · intro h
        cases h

theorem pwCandidates_ne_nil (bad : Sel → Bool) (t : Elem) (p : List Nat) :
    pwCandidates bad t p ≠ [] := by
  simp [pwCandidates]

theorem selCandidates_ne_nil (bad : Sel → Bool) (t : Elem) (p : List Nat) :
    selCandidates bad t p ≠ [] := by
  simp [selCandidates]

/-- Claim C6: grammar A joins the top 3 candidate strings — the head of
the stable descending sort of the candidate list, a permutation of it —
with `.or(page. ...)`, so the output has at most 3 alternatives; grammar B
keeps the top 2 and emits either a single `findElement` or the
primary-then-fallback try/recover pair, so at most 2 attempts. -/
theorem c6_fallback_cardinality (bad : Sel → Bool) (t : Elem) (p : List Nat) :
    ((sortByScoreDesc (pwCandidates bad t p)).Perm (pwCandidates bad t p) ∧
      (sortByScoreDesc (pwCandidates bad t p)).Pairwise
        (fun a b => b.score ≤ a.score) ∧
      (pwTops bad t p).length ≤ 3 ∧
      (∃ t0 rest, pwTops bad t p = t0 :: rest ∧
        playwrightBody bad t p =
          rest.foldl (fun acc s => acc ++ ".or(page." ++ s ++ ")") t0)) ∧
    ((sortByScoreDesc (selCandidates bad t p)).Perm (selCandidates bad t p) ∧
      (sortByScoreDesc (selCandidates bad t p)).Pairwise
        (fun a b => b.score ≤ a.score) ∧
      (selTops bad t p).length ≤ 2 ∧
      ((∃ l0, selTops bad t p = [l0] ∧
          seleniumBody bad t p = "driver.findElement(" ++ l0 ++ ")") ∨
        (∃ l0 l1 r, selTops bad t p = l0 :: l1 :: r ∧
          seleniumBody bad t p = tryCatchStr l0 l1))) := by
  constructor
  · refine ⟨sortByScoreDesc_perm _, sortByScoreDesc_sorted _, ?_, ?_⟩
    · unfold pwTops
      rw [List.length_take]
      omega
    · have hpos : 0 < (pwTops bad t p).length := by
        unfold pwTops
        rw [List.length_take, List.length_map,
          (sortByScoreDesc_perm _).length_eq]
        have := List.length_pos.mpr (pwCandidates_ne_nil bad t p)
        omega
      rcases htops : pwTops bad t p with _ | ⟨t0, rest⟩
      · rw [htops] at hpos
        simp at hpos
      · refine ⟨t0, rest, rfl, ?_⟩
        simp [playwrightBody, htops]
  · refine ⟨sortByScoreDesc_perm _, sortByScoreDesc_sorted _, ?_, ?_⟩
    · unfold selTops
      rw [List.length_take]
      omega
    · have hpos : 0 < (selTops bad t p).length := by
        unfold selTops
        rw [List.length_take, List.length_map,
          (sortByScoreDesc_perm _).length_eq]
        have := List.length_pos.mpr (selCandidates_ne_nil bad t p)
        omega
      rcases htops : selTops bad t p with _ | ⟨l0, _ | ⟨l1, r⟩⟩
      · rw [htops] at hpos
        simp at hpos
      · refine Or.inl ⟨l0, rfl, ?_⟩
        simp [seleniumBody, htops, String.append_assoc]
      · refine Or.inr ⟨l0, l1, r, rfl, ?_⟩
        simp [seleniumBody, htops]

/-- Claim C9: (a) when the relative-label probe fires with qualifier `r`,
candidate slot 2 emits the prefixed `r` scored 85 *in place of* the
placeholder candidate, and that candidate is in the composed list;
(b) the probe fires exactly as claimed — an `input` whose immediately
preceding element sibling is a `label` with non-empty text yields
`getByLabel` of the label's trimmed text; (c) in the concrete PIN Code
scenario (no test-id, no id, no class) the label candidate is grammar A's
top-ranked candidate with score 85, above placeholder's 80. -/
theorem c9_associated_label :
    (∀ (bad : Sel → Bool) (t : Elem) (p : List Nat) (r : String),
      getRelativeContext t p = some r →
        pwLabelOrPlaceholder t p (pwPrefix t p) =
            [Cand.mk (pwPrefix t p ++ r) 85] ∧
          Cand.mk (pwPrefix t p ++ r) 85 ∈ pwCandidates bad t p) ∧
    (∀ (t : Elem) (p q : List Nat) (i : Nat),
      parentIdx p = some (q, i) → i ≠ 0 →
      (elemAtD t p).tag = "input" →
      ((elemAtD t q).children.getD (i - 1) default).tag = "label" →
      ((elemAtD t q).children.getD (i - 1) default).innerText ≠ "" →
      getRelativeContext t p =
        some ("getByLabel('" ++
          escSQ (jsTrim
            ((elemAtD t q).children.getD (i - 1) default).innerText) ++
          "')")) ∧
    ((sortByScoreDesc (pwCandidates noBad pinDoc [1])).head? =
        some (Cand.mk "getByLabel('PIN Code')" 85) ∧
      calculateResilienceScore "placeholder" "PIN Code" < 85) := by
  refine ⟨?_, ?_, by decide, by decide⟩
  · intro bad t p r hr
    have hslot : pwLabelOrPlaceholder t p (pwPrefix t p) =
        [Cand.mk (pwPrefix t p ++ r) 85] := by
      unfold pwLabelOrPlaceholder
      rw [hr]
    refine ⟨hslot, ?_⟩
    have hexp : pwCandidates bad t p =
        (match attrVal (elemAtD t p) "data-testid" with
          | some v =>
            [Cand.mk (pwPrefix t p ++ "getByTestId('" ++ v ++ "')")
              (calculateResilienceScore "testid" v)]
          | none => []) ++
        pwLabelOrPlaceholder t p (pwPrefix t p) ++
        (match inferRole (elemAtD t p) with
          | some role =>
            match roleName (elemAtD t p) with
            | some nm =>
              [Cand.mk (pwPrefix t p ++ "getByRole('" ++ role ++
                  "', \x7b name: '" ++ escSQ nm ++ "' \x7d)")
                (calculateResilienceScore "role" role)]
            | none => []
          | none => []) ++
        (if (elemAtD t p).innerText != "" &&
            jsTrim (elemAtD t p).innerText != "" &&
            (elemAtD t p).children.isEmpty then
          [Cand.mk (pwPrefix t p ++ "getByText('" ++
              escSQ (take50 (firstLine (jsTrim (elemAtD t p).innerText))) ++
              "')")
            (calculateResilienceScore "text"
              (take50 (firstLine (jsTrim (elemAtD t p).innerText))))]
        else []) ++
        [Cand.mk ("locator('" ++
            escSQ (renderSel (getElementSelector bad t p)) ++ "')")
          (calculateResilienceScore "css"
            (renderSel (getElementSelector bad t p)))] := rfl
    rw [hexp, hslot]
    simp
  · intro t p q i hpi hi htag hlbl htext
    simp only [getRelativeContext, htag, hpi]
    simp only [List.getD_eq_getElem?_getD] at hlbl htext
    simp [hi, hlbl, htext]

/-- Claim C9 witness: in the PIN Code document the probe fires, slot 2 is
the label candidate scored 85, and it is among the composed candidates. -/
theorem c9_witness :
    (pwLabelOrPlaceholder pinDoc [1] (pwPrefix pinDoc [1]) =
        [Cand.mk (pwPrefix pinDoc [1] ++ "getByLabel('PIN Code')") 85] ∧
      Cand.mk (pwPrefix pinDoc [1] ++ "getByLabel('PIN Code')") 85 ∈
        pwCandidates noBad pinDoc [1]) ∧
    getRelativeContext pinDoc [1] =
      some ("getByLabel('" ++
        escSQ (jsTrim
          ((elemAtD pinDoc []).children.getD 0 default).innerText) ++ "')") :=
  ⟨c9_associated_label.1 noBad pinDoc [1] "getByLabel('PIN Code')" (by decide),
    c9_associated_label.2.1 pinDoc [1] [] 1 (by decide) (by decide) (by decide)
      (by decide) (by decide)⟩

end AITestGen
